import Mathlib

/-!
Shallow embedding of the bucardo_wrapper coordination layer: the index
migration workflow (`plugins/indexes`), the trigger state coordinator
(`plugins/bucardo`) and the lock-timeout retry governor (`plugins/retry`).
Database effects are modelled as pure state passing over explicit catalog
states; SQL statements issued by the code are recorded as strings or events.
-/

namespace BucardoWrapper

/-- A schema-qualified relation name, as the `(nspname, relname)` pairs
returned by `Plugin._find_objects`. -/
structure QualName where
  schema : String
  name : String
deriving DecidableEq, Repr

/-! ## Unit conversion (`Indexes._convert_units`)

The source removes every space from the human-readable threshold, splits it
into a leading digit run and a letter run with `re.split("([a-zA-Z]+)", ...)`,
converts via the `quantities` library, and keeps the integer part of the byte
value.  We model the string processing over `List Char` and the `quantities`
byte-unit table (SI multiples of the byte) as `unitFactor`. -/

/-- Byte value of the units of the `quantities` library used by
`_convert_units` (`getattr(pq, unit)` then converted to bytes): SI multiples
of the byte.  An unknown unit raises in the source, modelled as `none`. -/
def unitFactor : List Char → Option Nat
  | ['B'] => some 1
  | ['k', 'B'] => some 1000
  | ['M', 'B'] => some 1000000
  | ['G', 'B'] => some 1000000000
  | ['T', 'B'] => some 1000000000000
  | _ => none

/-- `str.replace(" ", "")`: remove every space character. -/
def stripSpaces (s : List Char) : List Char :=
  s.filter (fun c => c ≠ ' ')

/-- Numeric value of a digit run, as Python `int()` on a digit string. -/
def natOfDigits (s : List Char) : Nat :=
  s.foldl (fun n c => 10 * n + (c.toNat - 48)) 0

/-- `Indexes._convert_units` over the character list of the input: strip
spaces, take the leading run before the first letter as the magnitude
(`int()` fails unless it is a nonempty digit run), take the first letter run
as the unit, and multiply the magnitude by the byte value of the unit.
The source returns the byte count as a digit string; we return the number. -/
def convertUnitsChars (s : List Char) : Option Nat :=
  let compact := stripSpaces s
  let head := compact.takeWhile (fun c => ¬ c.isAlpha)
  let unit := (compact.dropWhile (fun c => ¬ c.isAlpha)).takeWhile Char.isAlpha
  if unit.isEmpty then none
  else if head.isEmpty then none
  else if ¬ head.all Char.isDigit then none
  else (unitFactor unit).map (fun f => natOfDigits head * f)

/-- `Indexes._convert_units` on a `String` threshold value. -/
def convert_units (larger_than : String) : Option Nat :=
  convertUnitsChars larger_than.data

/-! ## Catalog model for index/constraint discovery -/

/-- `pg_constraint.contype` values the queries distinguish:
`'p'` (primary key), `'u'` (unique), anything else. -/
inductive ConType
  | primaryKey
  | uniq
  | otherCon
deriving DecidableEq, Repr

/-- A row of `pg_indexes` on the primary. -/
structure PgIndex where
  schemaname : String
  tablename : String
  indexname : String
  indexdef : String
deriving DecidableEq, Repr

/-- A row of `pg_constraint` (joined to its namespace and table):
`connamespace` resolved to `nspname`, `conrelid` resolved to the
schema-qualified table, `pg_get_constraintdef` as `condef`. -/
structure PgConstraint where
  connamespace : String
  contable : QualName
  conname : String
  contype : ConType
  condef : String
deriving DecidableEq, Repr

/-- The primary database catalog visible to the discovery queries:
`pg_indexes`, `pg_constraint`, and `pg_relation_size` per qualified table. -/
structure Catalog where
  indexes : List PgIndex
  constraints : List PgConstraint
  relSize : String → String → Nat

/-- One discovered or stored object definition: the columns
`(schemaname, tablename, indexname, create_ddl, drop_ddl)` produced by the
discovery queries and stored in `manage_indexes.index_definitions`. -/
structure IndexDef where
  schemaname : String
  tablename : String
  indexname : String
  create_ddl : String
  drop_ddl : String
deriving DecidableEq, Repr

/-- The `NOT EXISTS` subquery of the index branch of
`Indexes._get_index_constraint_defs`: some `pg_constraint` row on the same
table has the index name and `contype IN ('p','u')`. -/
def backsKeyConstraint (cat : Catalog) (pi2 : PgIndex) : Bool :=
  cat.constraints.any (fun pc =>
    pc.contable = ⟨pi2.schemaname, pi2.tablename⟩ ∧ pc.conname = pi2.indexname ∧
      (pc.contype = ConType.primaryKey ∨ pc.contype = ConType.uniq))

/-- The index branch of `Indexes._get_index_constraint_defs`: rows of
`pg_indexes` on the given table, not backing a primary-key or unique
constraint, with the table larger than the threshold; `create_ddl` is the
`indexdef`, `drop_ddl` is `DROP INDEX schema.index`. -/
def get_index_defs (cat : Catalog) (table : QualName) (larger_than : Nat) :
    List IndexDef :=
  (cat.indexes.filter (fun pi2 =>
      pi2.schemaname = table.schema ∧ pi2.tablename = table.name ∧
        ¬ backsKeyConstraint cat pi2 ∧
        cat.relSize pi2.schemaname pi2.tablename > larger_than)).map
    (fun pi2 =>
      { schemaname := pi2.schemaname
        tablename := pi2.tablename
        indexname := pi2.indexname
        create_ddl := pi2.indexdef
        drop_ddl := "DROP INDEX " ++ pi2.schemaname ++ "." ++ pi2.indexname })

/-- The constraint branch of `Indexes._get_index_constraint_defs`: unique
constraints whose namespace and table name match, with the table larger than
the threshold; DDL built as `ALTER TABLE ... ADD/DROP CONSTRAINT`. -/
def get_constraint_defs (cat : Catalog) (table : QualName) (larger_than : Nat) :
    List IndexDef :=
  (cat.constraints.filter (fun pc =>
      pc.connamespace = table.schema ∧ pc.contable.name = table.name ∧
        pc.contype = ConType.uniq ∧
        cat.relSize pc.connamespace pc.contable.name > larger_than)).map
    (fun pc =>
      { schemaname := pc.connamespace
        tablename := pc.contable.name
        indexname := pc.conname
        create_ddl := "ALTER TABLE " ++ pc.connamespace ++ "." ++ pc.contable.name ++
          " ADD CONSTRAINT " ++ pc.conname ++ " " ++ pc.condef
        drop_ddl := "ALTER TABLE " ++ pc.connamespace ++ "." ++ pc.contable.name ++
          " DROP CONSTRAINT " ++ pc.conname })

/-! ## Backup store (`manage_indexes.index_definitions`) and the drop run -/

/-- A row of `manage_indexes.index_definitions` in the bucardo metadata
database. -/
structure StoredDef where
  schemaname : String
  tablename : String
  indexname : String
  create_ddl : String
  drop_ddl : String
  repl_name : String
deriving DecidableEq, Repr

/-- The unique key `(schemaname, indexname, repl_name)` of the backup store:
the `ON CONFLICT ... DO NOTHING` clause of `Indexes._store_index_defs`. -/
def sameStoreKey (a b : StoredDef) : Bool :=
  a.schemaname = b.schemaname ∧ a.indexname = b.indexname ∧ a.repl_name = b.repl_name

/-- One `INSERT ... ON CONFLICT (schemaname, indexname, repl_name) DO NOTHING`
into the backup store. -/
def storeInsert (store : List StoredDef) (row : StoredDef) : List StoredDef :=
  if store.any (fun r => sameStoreKey r row) then store else store ++ [row]

/-- The row written for a discovered definition, tagged with the replication
name. -/
def toStored (repl : String) (d : IndexDef) : StoredDef :=
  { schemaname := d.schemaname
    tablename := d.tablename
    indexname := d.indexname
    create_ddl := d.create_ddl
    drop_ddl := d.drop_ddl
    repl_name := repl }

/-- `Indexes._store_index_defs`: insert each discovered definition in order,
each with upsert-ignore semantics. -/
def store_index_defs (repl : String) (store : List StoredDef)
    (defs : List IndexDef) : List StoredDef :=
  defs.foldl (fun st d => storeInsert st (toStored repl d)) store

/-- `Indexes._check_num_indexes`: count of stored rows for
`(repl_name, schemaname, tablename)`. -/
def check_num_indexes (repl schemaname tablename : String)
    (store : List StoredDef) : Nat :=
  (store.filter (fun r =>
    r.repl_name = repl ∧ r.schemaname = schemaname ∧ r.tablename = tablename)).length

/-- `Indexes._execute_ddl`: execute the fetched statements on the secondary
in order, committing after each one.  `fails` tells which statement raises
when executed; the first failing statement aborts the loop (the exception
propagates), so the committed statements are the prefix before it. -/
def execute_ddl (fails : String → Bool) : List String → List String × Option String
  | [] => ([], none)
  | s :: rest =>
    if fails s then ([], some s)
    else
      let r := execute_ddl fails rest
      (s :: r.1, r.2)

/-- The drop statements fetched by `_execute_ddl("drop")`: the `drop_ddl`
column of every stored row for the replication name. -/
def dropStatements (repl : String) (store : List StoredDef) : List String :=
  (store.filter (fun r => r.repl_name = repl)).map (fun r => r.drop_ddl)

/-- The candidate definitions `drop()` discovers for one table:
`index_definitions + constraint_definitions`. -/
def allCandidates (cat : Catalog) (larger_than : Nat) (table : QualName) :
    List IndexDef :=
  get_index_defs cat table larger_than ++ get_constraint_defs cat table larger_than

/-- Outcome of one `Indexes.drop` run: the final backup store, the DROP
statements committed on the secondary, whether `_execute_ddl("drop")` was
reached, the consistency-gate error if one was raised, and the error raised
while executing DDL if any. -/
structure DropRun where
  store : List StoredDef
  executed : List String
  reachedExec : Bool
  gateError : Option String
  execError : Option String
deriving Repr

/-- The per-table loop of `Indexes.drop`: discover candidates, back them up,
and compare the stored count to the discovered count; a mismatch raises at
once, ending the run.  Returns the evolved store and the `safe_to_drop`
flag. -/
def dropLoop (cat : Catalog) (repl : String) (larger_than : Nat) :
    List QualName → List StoredDef → Bool →
      Except String (List StoredDef × Bool)
  | [], store, safe => Except.ok (store, safe)
  | t :: ts, store, safe =>
    let cands := allCandidates cat larger_than t
    if cands.isEmpty then
      dropLoop cat repl larger_than ts store safe
    else
      let store1 := store_index_defs repl store cands
      let expected := cands.length
      let stored := check_num_indexes repl t.schema t.name store1
      if expected = stored then dropLoop cat repl larger_than ts store1 true
      else Except.error ("Tried to store " ++ toString expected ++
        " index(es) for " ++ t.schema ++ "." ++ t.name ++
        " but " ++ toString stored ++ " were stored instead.")

/-- `Indexes.drop`: run the per-table backup-and-check loop over the in-scope
tables, and only if it completes with `safe_to_drop` set execute the stored
drop DDL on the secondary. -/
def Indexes.drop (cat : Catalog) (repl : String) (larger_than : Nat)
    (tables : List QualName) (store0 : List StoredDef)
    (fails : String → Bool) : DropRun :=
  match dropLoop cat repl larger_than tables store0 false with
  | Except.error e =>
    { store := store0, executed := [], reachedExec := false
      gateError := some e, execError := none }
  | Except.ok (store, safe) =>
    if safe then
      let r := execute_ddl fails (dropStatements repl store)
      { store := store, executed := r.1, reachedExec := true
        gateError := none, execError := r.2 }
    else
      { store := store, executed := [], reachedExec := false
        gateError := none, execError := none }

/-- The backup-store effect of processing one table in the loop of
`Indexes.drop`: back up its candidates when it has any. -/
def stepStore (cat : Catalog) (repl : String) (larger_than : Nat)
    (st : List StoredDef) (t : QualName) : List StoredDef :=
  let cands := allCandidates cat larger_than t
  if cands.isEmpty then st else store_index_defs repl st cands

/-- The backup store after the loop has processed a prefix of the tables
(ignoring gate failures): fold of the per-table backup step. -/
def storeAfter (cat : Catalog) (repl : String) (larger_than : Nat)
    (store0 : List StoredDef) (ts : List QualName) : List StoredDef :=
  ts.foldl (stepStore cat repl larger_than) store0

/-- The consistency gate fails at position `k` of the table list: table `k`
has candidates and, after backing them up on top of the store produced by the
earlier tables, the stored count for the table differs from the candidate
count. -/
def mismatchAt (cat : Catalog) (repl : String) (larger_than : Nat) :
    List StoredDef → List QualName → Nat → Bool
  | _, [], _ => false
  | store, t :: _, 0 =>
    if (allCandidates cat larger_than t).isEmpty then false
    else decide (check_num_indexes repl t.schema t.name
        (store_index_defs repl store (allCandidates cat larger_than t)) ≠
      (allCandidates cat larger_than t).length)
  | store, t :: ts, Nat.succ k =>
    mismatchAt cat repl larger_than (stepStore cat repl larger_than store t) ts k

/-! ## Trigger state coordinator (`plugins/bucardo`)

Triggers live in `pg_trigger`; `tgenabled` is `'O'` (enabled, origin),
`'D'` (disabled), `'A'` (always) or `'R'` (replica).  The ALTER issued per
table may fail; the outcome oracle models which tables raise
`LockNotAvailable` or another exception when altered. -/

/-- `pg_trigger.tgenabled` values. -/
inductive TgEnabled
  | origin
  | disabled
  | always
  | replica
deriving DecidableEq, Repr

/-- A trigger row on a table. -/
structure PgTrigger where
  tgname : String
  tgenabled : TgEnabled
deriving DecidableEq, Repr

/-- An in-scope table on the primary with its triggers. -/
structure DbTable where
  schema : String
  name : String
  triggers : List PgTrigger
deriving DecidableEq, Repr

/-- Outcome of executing one ALTER / DROP TRIGGER statement. -/
inductive AlterOutcome
  | ok
  | lockNotAvailable
  | otherError
deriving DecidableEq, Repr

/-- Observable actions of the coordinator and the retry governor. -/
inductive LockTimeoutVal
  | default
  | msec (n : Nat)
deriving DecidableEq, Repr

/-- Events recorded along a run: lock-timeout changes, sync registration and
validation, ALTER statements, per-table skip diagnostics, and trigger
drops. -/
inductive Event
  | setTimeoutEv (v : LockTimeoutVal)
  | addSyncEv (repl : String) (onetimecopy : Nat)
  | validateSyncEv (repl : String)
  | alterEv (stmt : String)
  | diagEv (trigger : String) (tbl : String)
  | dropEv (stmt : String)
deriving DecidableEq, Repr

/-- Whether an event is an executed ALTER statement. -/
def Event.isAlterEv : Event → Bool
  | Event.alterEv _ => true
  | _ => false

/-- The mapping of `_toggle_triggers` from its `enable_or_disable` argument
to the `tgenabled` value it reconciles towards; any other string raises
`ValueError`. -/
def toggleTarget : String → Option TgEnabled
  | "disable" => some TgEnabled.disabled
  | "enable always" => some TgEnabled.always
  | _ => none

/-- The catalog probe of `_toggle_triggers`: some trigger of this name on the
table has `tgenabled <> ` the wanted value. -/
def needsToggling (tgt : TgEnabled) (trigger : String) (t : DbTable) : Bool :=
  t.triggers.any (fun tg => tg.tgname = trigger ∧ tg.tgenabled ≠ tgt)

/-- Effect of the committed ALTER: the named trigger now carries the wanted
`tgenabled` value. -/
def setTrigger (tgt : TgEnabled) (trigger : String) (t : DbTable) : DbTable :=
  { t with triggers := t.triggers.map (fun tg =>
      if tg.tgname = trigger then { tg with tgenabled := tgt } else tg) }

/-- Text of the ALTER statement issued by `_toggle_triggers`. -/
def alterStmt (tgt : TgEnabled) (trigger : String) (t : DbTable) : String :=
  let enabled := if tgt = TgEnabled.disabled then "DISABLE TRIGGER"
    else "ENABLE ALWAYS TRIGGER"
  "ALTER TABLE " ++ t.schema ++ "." ++ t.name ++ " " ++ enabled ++ " " ++ trigger

/-- Result of a coordinator call: final tables, events in order, and the
propagated exception if one escaped. -/
structure ToggleResult where
  tables : List DbTable
  events : List Event
  err : Option String
deriving Repr

/-- The per-table loop of `_toggle_triggers`: skip tables already in the
wanted state; otherwise issue the ALTER — on success commit, on
`LockNotAvailable` print the skip diagnostic, roll back and continue, on any
other exception roll back and re-raise, leaving the remaining tables
unprocessed. -/
def toggleLoop (oracle : QualName → String → AlterOutcome) (tgt : TgEnabled)
    (trigger : String) : List DbTable → ToggleResult
  | [] => { tables := [], events := [], err := none }
  | t :: ts =>
    if needsToggling tgt trigger t then
      match oracle ⟨t.schema, t.name⟩ trigger with
      | AlterOutcome.ok =>
        let r := toggleLoop oracle tgt trigger ts
        { tables := setTrigger tgt trigger t :: r.tables
          events := Event.alterEv (alterStmt tgt trigger t) :: r.events
          err := r.err }
      | AlterOutcome.lockNotAvailable =>
        let r := toggleLoop oracle tgt trigger ts
        { tables := t :: r.tables
          events := Event.diagEv trigger (t.schema ++ "." ++ t.name) :: r.events
          err := r.err }
      | AlterOutcome.otherError =>
        { tables := t :: ts, events := [], err := some "exception" }
    else
      let r := toggleLoop oracle tgt trigger ts
      { tables := t :: r.tables, events := r.events, err := r.err }

/-- `Bucardo._toggle_triggers`: translate the mode string (raising
`ValueError` on anything else), then run the per-table loop. -/
def toggle_triggers (oracle : QualName → String → AlterOutcome)
    (enable_or_disable trigger : String) (tables : List DbTable) : ToggleResult :=
  match toggleTarget enable_or_disable with
  | none => { tables := tables, events := [], err := some "ValueError" }
  | some tgt => toggleLoop oracle tgt trigger tables

/-- Name of the kick trigger bucardo places on each table. -/
def kickTrigger (repl : String) : String := "bucardo_kick_" ++ repl

/-- Name of the truncate-propagation trigger bucardo places on each table. -/
def truncTrigger (repl : String) : String := "bucardo_note_trunc_" ++ repl

/-- Sequencing of coordinator calls: an escaped exception aborts the rest;
events accumulate in order. -/
def ToggleResult.andThen (r : ToggleResult)
    (f : List DbTable → ToggleResult) : ToggleResult :=
  match r.err with
  | some _ => r
  | none =>
    let r2 := f r.tables
    { tables := r2.tables, events := r.events ++ r2.events, err := r2.err }

/-- The no-op coordinator call. -/
def ToggleResult.skip (tables : List DbTable) : ToggleResult :=
  { tables := tables, events := [], err := none }

/-- `Bucardo._manage_triggers`: disable the kick trigger when asynchronous
kicking is configured; when cascading, enable-always the truncate trigger,
and also the kick trigger when not kicking asynchronously. -/
def manage_triggers (oracle : QualName → String → AlterOutcome)
    (cascade async_kick : Bool) (repl : String)
    (tables : List DbTable) : ToggleResult :=
  let r1 := if async_kick then
      toggle_triggers oracle "disable" (kickTrigger repl) tables
    else ToggleResult.skip tables
  r1.andThen (fun tb1 =>
    if cascade then
      (toggle_triggers oracle "enable always" (truncTrigger repl) tb1).andThen
        (fun tb2 =>
          if ¬ async_kick then
            toggle_triggers oracle "enable always" (kickTrigger repl) tb2
          else ToggleResult.skip tb2)
    else ToggleResult.skip tb1)

/-- `onetimecopy` chosen by `Bucardo.add_triggers`: default `0`, overridden
only when `copy_data` is exactly one of the three mapped strings. -/
def copyMode (copy_data : String) : Nat :=
  if copy_data = "never" then 0
  else if copy_data = "always" then 1
  else if copy_data = "empty" then 2
  else 0

/-- `Bucardo.add_triggers`: register the sync with the replication engine
(`bucardo add sync ... onetimecopy=N`, a shell call that raises nothing),
then reconcile triggers. -/
def bucardo_add_triggers (oracle : QualName → String → AlterOutcome)
    (cascade async_kick : Bool) (repl copy_data : String)
    (tables : List DbTable) : ToggleResult :=
  let r := manage_triggers oracle cascade async_kick repl tables
  { tables := r.tables
    events := Event.addSyncEv repl (copyMode copy_data) :: r.events
    err := r.err }

/-- The three trigger names `Bucardo.drop_triggers` removes from every
table. -/
def dropTriggerNames (repl : String) : List String :=
  ["bucardo_delta", kickTrigger repl, truncTrigger repl]

/-- Text of one `DROP TRIGGER IF EXISTS` statement. -/
def dropTriggerStmt (trigger : String) (t : DbTable) : String :=
  "DROP TRIGGER IF EXISTS " ++ trigger ++ " ON " ++ t.schema ++ "." ++ t.name

/-- Effect of a committed `DROP TRIGGER IF EXISTS`. -/
def removeTrigger (trigger : String) (t : DbTable) : DbTable :=
  { t with triggers := t.triggers.filter (fun tg => tg.tgname ≠ trigger) }

/-- The inner loop of `Bucardo.drop_triggers` over the three trigger names of
one table: commit each drop, skip with a diagnostic on `LockNotAvailable`,
re-raise on anything else. -/
def dropTableTriggers (oracle : QualName → String → AlterOutcome)
    (t : DbTable) : List String → DbTable × List Event × Option String
  | [] => (t, [], none)
  | trg :: rest =>
    match oracle ⟨t.schema, t.name⟩ trg with
    | AlterOutcome.ok =>
      let r := dropTableTriggers oracle (removeTrigger trg t) rest
      (r.1, Event.dropEv (dropTriggerStmt trg t) :: r.2.1, r.2.2)
    | AlterOutcome.lockNotAvailable =>
      let r := dropTableTriggers oracle t rest
      (r.1, Event.diagEv trg (t.schema ++ "." ++ t.name) :: r.2.1, r.2.2)
    | AlterOutcome.otherError => (t, [], some "exception")

/-- `Bucardo.drop_triggers`: drop the three bucardo triggers from every
in-scope table, each statement in its own transaction. -/
def bucardo_drop_triggers (oracle : QualName → String → AlterOutcome)
    (repl : String) : List DbTable → ToggleResult
  | [] => { tables := [], events := [], err := none }
  | t :: ts =>
    let r := dropTableTriggers oracle t (dropTriggerNames repl)
    match r.2.2 with
    | some e => { tables := r.1 :: ts, events := r.2.1, err := some e }
    | none =>
      let rest := bucardo_drop_triggers oracle repl ts
      { tables := r.1 :: rest.tables, events := r.2.1 ++ rest.events
        err := rest.err }

/-! ## Lock-timeout retry governor (`plugins/retry`)

`Retry.add_triggers` / `Retry.drop_triggers` set the primary role's
`lock_timeout` to the configured value, run the wrapped bucardo operation,
and then set the timeout back to `DEFAULT`.  There is no `try/finally`: the
second `_set_timeout` call is only reached when the wrapped operation returns
normally.  An exception escaping the wrapped operation crosses the call
boundary with the configured timeout still set. -/

/-- Outcome of a retry-governor call: final tables, the event trace, the
role's `lock_timeout` setting on the primary when the call exits (normally or
by exception), and the propagated exception if any. -/
structure RetryRun where
  tables : List DbTable
  events : List Event
  lockTimeout : LockTimeoutVal
  err : Option String
deriving Repr

/-- The governor pattern shared by `Retry.add_triggers` and
`Retry.drop_triggers`: `_set_timeout(user, timeout)`, the wrapped operation,
and — only when the operation returns normally — `_set_timeout(user,
'DEFAULT')`.  There is no `try/finally` in the source, so when the wrapped
operation raises, the restoring call is never reached. -/
def governWrap (timeout : Nat) (inner : ToggleResult) : RetryRun :=
  let pre := [Event.setTimeoutEv (LockTimeoutVal.msec timeout)]
  match inner.err with
  | some e =>
    { tables := inner.tables, events := pre ++ inner.events
      lockTimeout := LockTimeoutVal.msec timeout, err := some e }
  | none =>
    { tables := inner.tables
      events := pre ++ inner.events ++ [Event.setTimeoutEv LockTimeoutVal.default]
      lockTimeout := LockTimeoutVal.default, err := none }

/-- The body wrapped by `Retry.add_triggers`: if a row exists in
`bucardo.sync`, validate the sync and reconcile triggers; otherwise run the
full registering `Bucardo.add_triggers`. -/
def retryAddBody (oracle : QualName → String → AlterOutcome)
    (syncExists cascade async_kick : Bool) (repl copy_data : String)
    (tables : List DbTable) : ToggleResult :=
  if syncExists then
    let r := manage_triggers oracle cascade async_kick repl tables
    { tables := r.tables
      events := Event.validateSyncEv repl :: r.events
      err := r.err }
  else
    bucardo_add_triggers oracle cascade async_kick repl copy_data tables

/-- `Retry.add_triggers`: bound the lock wait, run the body chosen by
`_check_for_syncs`, restore the default timeout only after a normal
return. -/
def retry_add_triggers (oracle : QualName → String → AlterOutcome)
    (syncExists cascade async_kick : Bool) (repl copy_data : String)
    (timeout : Nat) (tables : List DbTable) : RetryRun :=
  governWrap timeout
    (retryAddBody oracle syncExists cascade async_kick repl copy_data tables)

/-- `Retry.drop_triggers`: bound the lock wait, run `Bucardo.drop_triggers`,
restore the default timeout only after a normal return. -/
def retry_drop_triggers (oracle : QualName → String → AlterOutcome)
    (repl : String) (timeout : Nat) (tables : List DbTable) : RetryRun :=
  governWrap timeout (bucardo_drop_triggers oracle repl tables)

/-! ## Helper lemmas -/

theorem setTrigger_of_not_needs (tgt : TgEnabled) (trigger : String)
    (t : DbTable) (h : needsToggling tgt trigger t = false) :
    setTrigger tgt trigger t = t := by
  unfold needsToggling at h
  simp only [List.any_eq_false, decide_eq_true_eq, not_and, ne_eq,
    Decidable.not_not] at h
  unfold setTrigger
  cases t with
  | mk s n trs =>
    simp only [DbTable.mk.injEq, true_and]
    have : ∀ tg ∈ trs,
        (if tg.tgname = trigger then { tg with tgenabled := tgt } else tg) = tg := by
      intro tg htg
      by_cases hn : tg.tgname = trigger
      · have := h tg htg hn
        simp only [hn, if_pos]
        cases tg
        simp_all
      · simp [hn]
    calc trs.map (fun tg =>
          if tg.tgname = trigger then { tg with tgenabled := tgt } else tg)
        = trs.map id := List.map_congr_left this
      _ = trs := List.map_id trs

theorem toggleLoop_ok (oracle : QualName → String → AlterOutcome)
    (tgt : TgEnabled) (trigger : String)
    (hok : ∀ q s, oracle q s = AlterOutcome.ok) :
    ∀ ts : List DbTable,
      (toggleLoop oracle tgt trigger ts).tables = ts.map (setTrigger tgt trigger) ∧
      (toggleLoop oracle tgt trigger ts).err = none := by
  intro ts
  induction ts with
  | nil => simp [toggleLoop]
  | cons t ts ih =>
    by_cases hn : needsToggling tgt trigger t
    · simp [toggleLoop, hn, hok, ih.1, ih.2]
    · simp only [Bool.not_eq_true] at hn
      simp [toggleLoop, hn, ih.1, ih.2, setTrigger_of_not_needs tgt trigger t hn]

theorem toggleLoop_no_need (oracle : QualName → String → AlterOutcome)
    (tgt : TgEnabled) (trigger : String) :
    ∀ ts : List DbTable, (∀ t ∈ ts, needsToggling tgt trigger t = false) →
      toggleLoop oracle tgt trigger ts = ToggleResult.skip ts := by
  intro ts
  induction ts with
  | nil => intro _; simp [toggleLoop, ToggleResult.skip]
  | cons t ts ih =>
    intro h
    have ht := h t (by simp)
    have hts := ih (fun x hx => h x (by simp [hx]))
    simp [toggleLoop, ht, hts, ToggleResult.skip]

theorem needs_after_set_same (tgt : TgEnabled) (trigger : String) (t : DbTable) :
    needsToggling tgt trigger (setTrigger tgt trigger t) = false := by
  unfold needsToggling setTrigger
  simp only [List.any_map, List.any_eq_false, Function.comp_apply]
  intro tg _
  by_cases hn : tg.tgname = trigger <;> simp [hn]

theorem needs_after_set_other (tgt tgt2 : TgEnabled) (n m : String)
    (hnm : n ≠ m) (t : DbTable) :
    needsToggling tgt n (setTrigger tgt2 m t) = needsToggling tgt n t := by
  unfold needsToggling setTrigger
  simp only [List.any_map]
  congr 1
  funext tg
  by_cases hm : tg.tgname = m
  · simp [Function.comp, hm, hnm.symm]
  · simp [Function.comp, hm]

theorem kick_ne_trunc (repl : String) : kickTrigger repl ≠ truncTrigger repl := by
  intro h
  have hl := congrArg String.length h
  simp only [kickTrigger, truncTrigger, String.length_append] at hl
  have h13 : "bucardo_kick_".length = 13 := by decide
  have h19 : "bucardo_note_trunc_".length = 19 := by decide
  rw [h13, h19] at hl
  omega

theorem stripSpaces_idem (s : List Char) :
    stripSpaces (stripSpaces s) = stripSpaces s := by
  simp [stripSpaces, List.filter_filter]

/-- C8: threshold parsing converts `"<integer><unit>"` to the byte count used
in the size queries, and is insensitive to internal spaces: parsing a value
with its spaces removed gives the same result, `"500MB"` parses identically
to `"500 MB"`, and `"10 GB"` yields the byte count of 10 gigabytes. -/
theorem C8_threshold_parsing :
    (∀ s : List Char, convertUnitsChars (stripSpaces s) = convertUnitsChars s) ∧
    convert_units "500MB" = convert_units "500 MB" ∧
    convert_units "10 GB" = some 10000000000 ∧
    convert_units "500 MB" = some 500000000 := by
  refine ⟨?_, by decide, by decide, by decide⟩
  intro s
  unfold convertUnitsChars
  rw [stripSpaces_idem]

theorem toggleLoop_ok_tables (oracle : QualName → String → AlterOutcome)
    (tgt : TgEnabled) (trigger : String)
    (hok : ∀ q s, oracle q s = AlterOutcome.ok) (ts : List DbTable) :
    (toggleLoop oracle tgt trigger ts).tables = ts.map (setTrigger tgt trigger) :=
  (toggleLoop_ok oracle tgt trigger hok ts).1

theorem toggleLoop_ok_err (oracle : QualName → String → AlterOutcome)
    (tgt : TgEnabled) (trigger : String)
    (hok : ∀ q s, oracle q s = AlterOutcome.ok) (ts : List DbTable) :
    (toggleLoop oracle tgt trigger ts).err = none :=
  (toggleLoop_ok oracle tgt trigger hok ts).2

/-- The composite state `manage_triggers` leaves behind when every ALTER
succeeds, per `(cascade, async_kick)` combination. -/
def manageOkTables (cascade async_kick : Bool) (repl : String)
    (tables : List DbTable) : List DbTable :=
  match cascade, async_kick with
  | false, false => tables
  | false, true => tables.map (setTrigger TgEnabled.disabled (kickTrigger repl))
  | true, false =>
    (tables.map (setTrigger TgEnabled.always (truncTrigger repl))).map
      (setTrigger TgEnabled.always (kickTrigger repl))
  | true, true =>
    (tables.map (setTrigger TgEnabled.disabled (kickTrigger repl))).map
      (setTrigger TgEnabled.always (truncTrigger repl))

theorem manage_triggers_ok (oracle : QualName → String → AlterOutcome)
    (cascade async_kick : Bool) (repl : String) (tables : List DbTable)
    (hok : ∀ q s, oracle q s = AlterOutcome.ok) :
    (manage_triggers oracle cascade async_kick repl tables).err = none ∧
    (manage_triggers oracle cascade async_kick repl tables).tables =
      manageOkTables cascade async_kick repl tables := by
  cases cascade <;> cases async_kick <;>
    simp [manage_triggers, toggle_triggers, toggleTarget, ToggleResult.skip,
      ToggleResult.andThen, manageOkTables,
      toggleLoop_ok_tables oracle _ _ hok, toggleLoop_ok_err oracle _ _ hok]

/-- C10: any `copy_data` value other than the exact strings `"never"`,
`"always"`, `"empty"` silently falls back to `onetimecopy=0`: `add_triggers`
raises nothing and registers the sync with the never-copy mode, and a
non-zero `onetimecopy` is only ever selected by `"always"` or `"empty"`. -/
theorem C10_copy_data_fallback (oracle : QualName → String → AlterOutcome)
    (cascade async_kick : Bool) (repl copy_data : String) (tables : List DbTable)
    (hok : ∀ q s, oracle q s = AlterOutcome.ok)
    (hcd : copy_data ≠ "never" ∧ copy_data ≠ "always" ∧ copy_data ≠ "empty") :
    (bucardo_add_triggers oracle cascade async_kick repl copy_data tables).err = none ∧
    Event.addSyncEv repl 0 ∈
      (bucardo_add_triggers oracle cascade async_kick repl copy_data tables).events ∧
    (∀ s : String, copyMode s ≠ 0 → s = "always" ∨ s = "empty") := by
  obtain ⟨h1, h2, h3⟩ := hcd
  have hmode : copyMode copy_data = 0 := by simp [copyMode, h1, h2, h3]
  refine ⟨?_, ?_, ?_⟩
  · simp [bucardo_add_triggers,
      (manage_triggers_ok oracle cascade async_kick repl tables hok).1]
  · simp [bucardo_add_triggers, hmode]
  · intro s hs
    by_cases hn : s = "never"
    · simp [copyMode, hn] at hs
    · by_cases ha : s = "always"
      · exact Or.inl ha
      · by_cases he : s = "empty"
        · exact Or.inr he
        · simp [copyMode, hn, ha, he] at hs

/-- A concrete trigger-bearing table used to exercise the exception path of
the retry governor. -/
def tablesC2 : List DbTable :=
  [⟨"public", "tab", [⟨"bucardo_kick_r", TgEnabled.origin⟩]⟩]

/-- C2 fails on the code: when the wrapped operation raises (here the ALTER
on the only table raises a non-lock error), `Retry.add_triggers` propagates
the exception without reaching the restoring `_set_timeout` call, so the
role's `lock_timeout` is left at the configured value, not the default. -/
theorem C2_counterexample :
    ((retry_add_triggers (fun _ _ => AlterOutcome.otherError) true false true
      "r" "never" 5000 tablesC2).err.isSome = true) ∧
    (retry_add_triggers (fun _ _ => AlterOutcome.otherError) true false true
      "r" "never" 5000 tablesC2).lockTimeout ≠ LockTimeoutVal.default := by
  decide

theorem governWrap_lock (timeout : Nat) (inner : ToggleResult) :
    ((governWrap timeout inner).err = none →
      (governWrap timeout inner).lockTimeout = LockTimeoutVal.default) ∧
    ((governWrap timeout inner).err.isSome = true →
      (governWrap timeout inner).lockTimeout = LockTimeoutVal.msec timeout) := by
  cases h : inner.err <;> simp [governWrap, h]

/-- C2 amended: the retry governor resets the role's `lock_timeout` to the
default only on a normal return of the wrapped operation; when the wrapped
operation raises, the configured timeout value is left in place past the
call boundary (there is no `try/finally`). -/
theorem C2_amended_timeout_restore (oracle : QualName → String → AlterOutcome)
    (syncExists cascade async_kick : Bool) (repl copy_data : String)
    (timeout : Nat) (tables : List DbTable) :
    ((retry_add_triggers oracle syncExists cascade async_kick repl copy_data
        timeout tables).err = none →
      (retry_add_triggers oracle syncExists cascade async_kick repl copy_data
        timeout tables).lockTimeout = LockTimeoutVal.default) ∧
    ((retry_add_triggers oracle syncExists cascade async_kick repl copy_data
        timeout tables).err.isSome = true →
      (retry_add_triggers oracle syncExists cascade async_kick repl copy_data
        timeout tables).lockTimeout = LockTimeoutVal.msec timeout) ∧
    ((retry_drop_triggers oracle repl timeout tables).err = none →
      (retry_drop_triggers oracle repl timeout tables).lockTimeout =
        LockTimeoutVal.default) ∧
    ((retry_drop_triggers oracle repl timeout tables).err.isSome = true →
      (retry_drop_triggers oracle repl timeout tables).lockTimeout =
        LockTimeoutVal.msec timeout) := by
  refine ⟨?_, ?_, ?_, ?_⟩
  · exact (governWrap_lock timeout _).1
  · exact (governWrap_lock timeout _).2
  · exact (governWrap_lock timeout _).1
  · exact (governWrap_lock timeout _).2

/-- Witness for the amended C2: on a normal return the timeout is the
default; on the exception path it is the configured value. -/
theorem C2_amended_timeout_restore_witness :
    (retry_add_triggers (fun _ _ => AlterOutcome.ok) true false false
      "r" "never" 5000 tablesC2).lockTimeout = LockTimeoutVal.default ∧
    (retry_add_triggers (fun _ _ => AlterOutcome.otherError) true false true
      "r" "never" 5000 tablesC2).lockTimeout = LockTimeoutVal.msec 5000 :=
  ⟨(C2_amended_timeout_restore (fun _ _ => AlterOutcome.ok) true false false
      "r" "never" 5000 tablesC2).1 (by decide),
   (C2_amended_timeout_restore (fun _ _ => AlterOutcome.otherError) true false
      true "r" "never" 5000 tablesC2).2.1 (by decide)⟩

/-- Events a trigger reconciliation run can emit: only ALTER statements and
skip diagnostics. -/
def reconcileShape (e : Event) : Prop :=
  (∃ s, e = Event.alterEv s) ∨ ∃ a b, e = Event.diagEv a b

theorem toggleLoop_events_shape (oracle : QualName → String → AlterOutcome)
    (tgt : TgEnabled) (trigger : String) :
    ∀ ts : List DbTable, ∀ e ∈ (toggleLoop oracle tgt trigger ts).events,
      reconcileShape e := by
  intro ts
  induction ts with
  | nil => simp [toggleLoop]
  | cons t ts ih =>
    intro e he
    by_cases hn : needsToggling tgt trigger t
    · cases ho : oracle ⟨t.schema, t.name⟩ trigger
      · simp only [toggleLoop, hn, if_true, ho] at he
        rcases List.mem_cons.mp he with rfl | h2
        · exact Or.inl ⟨_, rfl⟩
        · exact ih e h2
      · simp only [toggleLoop, hn, if_true, ho] at he
        rcases List.mem_cons.mp he with rfl | h2
        · exact Or.inr ⟨_, _, rfl⟩
        · exact ih e h2
      · simp only [toggleLoop, hn, if_true, ho] at he
        simp at he
    · simp only [Bool.not_eq_true] at hn
      simp only [toggleLoop, hn, Bool.false_eq_true, if_false] at he
      exact ih e he

theorem toggle_events_shape (oracle : QualName → String → AlterOutcome)
    (mode trigger : String) (ts : List DbTable) :
    ∀ e ∈ (toggle_triggers oracle mode trigger ts).events, reconcileShape e := by
  unfold toggle_triggers
  cases toggleTarget mode with
  | none => simp
  | some tgt => exact toggleLoop_events_shape oracle tgt trigger ts

theorem andThen_events_shape {P : Event → Prop} (r : ToggleResult)
    (f : List DbTable → ToggleResult) (hr : ∀ e ∈ r.events, P e)
    (hf : ∀ tb, ∀ e ∈ (f tb).events, P e) :
    ∀ e ∈ (r.andThen f).events, P e := by
  unfold ToggleResult.andThen
  cases h : r.err with
  | some e0 => simpa [h] using hr
  | none =>
    intro e he
    simp only [h] at he
    rcases List.mem_append.mp he with h1 | h2
    · exact hr e h1
    · exact hf _ e h2

theorem manage_events_shape (oracle : QualName → String → AlterOutcome)
    (cascade async_kick : Bool) (repl : String) (tables : List DbTable) :
    ∀ e ∈ (manage_triggers oracle cascade async_kick repl tables).events,
      reconcileShape e := by
  unfold manage_triggers
  apply andThen_events_shape
  · cases async_kick
    · simp [ToggleResult.skip]
    · simpa using toggle_events_shape oracle "disable" (kickTrigger repl) tables
  · intro tb1
    cases cascade
    · simp [ToggleResult.skip]
    · simp only [if_true]
      apply andThen_events_shape
      · exact toggle_events_shape oracle "enable always" (truncTrigger repl) tb1
      · intro tb2
        cases async_kick
        · simpa using
            toggle_events_shape oracle "enable always" (kickTrigger repl) tb2
        · simp [ToggleResult.skip]

theorem no_addSync_of_shape (evs : List Event)
    (h : ∀ e ∈ evs, reconcileShape e) (s : String) (n : Nat) :
    Event.addSyncEv s n ∉ evs := by
  intro hmem
  rcases h _ hmem with ⟨_, h2⟩ | ⟨_, _, h2⟩ <;> simp at h2

theorem no_validate_of_shape (evs : List Event)
    (h : ∀ e ∈ evs, reconcileShape e) (s : String) :
    Event.validateSyncEv s ∉ evs := by
  intro hmem
  rcases h _ hmem with ⟨_, h2⟩ | ⟨_, _, h2⟩ <;> simp at h2

/-- C9: when a sync is already registered, the governed `add_triggers`
validates the sync and reconciles triggers without ever re-registering
(no `add sync` call in the trace); when no sync exists, it runs the full
registration path; in both cases the trigger reconciliation of
`_manage_triggers` is part of the run. -/
theorem C9_sync_detection (oracle : QualName → String → AlterOutcome)
    (syncExists cascade async_kick : Bool) (repl copy_data : String)
    (timeout : Nat) (tables : List DbTable) :
    (syncExists = true →
      Event.validateSyncEv repl ∈ (retry_add_triggers oracle syncExists cascade
        async_kick repl copy_data timeout tables).events ∧
      ∀ s n, Event.addSyncEv s n ∉ (retry_add_triggers oracle syncExists cascade
        async_kick repl copy_data timeout tables).events) ∧
    (syncExists = false →
      Event.addSyncEv repl (copyMode copy_data) ∈ (retry_add_triggers oracle
        syncExists cascade async_kick repl copy_data timeout tables).events ∧
      ∀ s, Event.validateSyncEv s ∉ (retry_add_triggers oracle syncExists
        cascade async_kick repl copy_data timeout tables).events) ∧
    (∃ pre post, (retry_add_triggers oracle syncExists cascade async_kick repl
        copy_data timeout tables).events =
      pre ++ (manage_triggers oracle cascade async_kick repl tables).events
        ++ post) := by
  have hM := manage_events_shape oracle cascade async_kick repl tables
  refine ⟨?_, ?_, ?_⟩
  · intro hs
    subst hs
    cases hE : (manage_triggers oracle cascade async_kick repl tables).err <;>
      simp only [retry_add_triggers, retryAddBody, if_true, governWrap, hE] <;>
      constructor
    · simp
    · intro s n
      simp [List.mem_append, List.mem_cons, List.mem_singleton,
        no_addSync_of_shape _ hM s n]
    · simp
    · intro s n
      simp [List.mem_append, List.mem_cons, List.mem_singleton,
        no_addSync_of_shape _ hM s n]
  · intro hs
    subst hs
    cases hE : (manage_triggers oracle cascade async_kick repl tables).err <;>
      simp only [retry_add_triggers, retryAddBody, Bool.false_eq_true, if_false,
        governWrap, bucardo_add_triggers, hE] <;>
      constructor
    · simp
    · intro s
      simp [List.mem_append, List.mem_cons, List.mem_singleton,
        no_validate_of_shape _ hM s]
    · simp
    · intro s
      simp [List.mem_append, List.mem_cons, List.mem_singleton,
        no_validate_of_shape _ hM s]
  · cases syncExists <;>
      cases hE : (manage_triggers oracle cascade async_kick repl tables).err
    · exact ⟨[Event.setTimeoutEv (LockTimeoutVal.msec timeout),
        Event.addSyncEv repl (copyMode copy_data)],
        [Event.setTimeoutEv LockTimeoutVal.default], by
          simp [retry_add_triggers, retryAddBody, governWrap,
            bucardo_add_triggers, hE]⟩
    · exact ⟨[Event.setTimeoutEv (LockTimeoutVal.msec timeout),
        Event.addSyncEv repl (copyMode copy_data)], [], by
          simp [retry_add_triggers, retryAddBody, governWrap,
            bucardo_add_triggers, hE]⟩
    · exact ⟨[Event.setTimeoutEv (LockTimeoutVal.msec timeout),
        Event.validateSyncEv repl],
        [Event.setTimeoutEv LockTimeoutVal.default], by
          simp [retry_add_triggers, retryAddBody, governWrap, hE]⟩
    · exact ⟨[Event.setTimeoutEv (LockTimeoutVal.msec timeout),
        Event.validateSyncEv repl], [], by
          simp [retry_add_triggers, retryAddBody, governWrap, hE]⟩

/-- Witness for C9 at a concrete registered-sync state. -/
theorem C9_sync_detection_witness :
    Event.validateSyncEv "r" ∈ (retry_add_triggers (fun _ _ => AlterOutcome.ok)
      true false false "r" "never" 5 tablesC2).events ∧
    (∀ s n, Event.addSyncEv s n ∉ (retry_add_triggers (fun _ _ => AlterOutcome.ok)
      true false false "r" "never" 5 tablesC2).events) :=
  ⟨((C9_sync_detection (fun _ _ => AlterOutcome.ok) true false false "r" "never"
      5 tablesC2).1 rfl).1,
   ((C9_sync_detection (fun _ _ => AlterOutcome.ok) true false false "r" "never"
      5 tablesC2).1 rfl).2⟩

/-- Witness for C10 at the unmapped string `"sometimes"`. -/
theorem C10_copy_data_fallback_witness :
    (bucardo_add_triggers (fun _ _ => AlterOutcome.ok) false false "r"
      "sometimes" tablesC2).err = none ∧
    Event.addSyncEv "r" 0 ∈ (bucardo_add_triggers (fun _ _ => AlterOutcome.ok)
      false false "r" "sometimes" tablesC2).events :=
  ⟨(C10_copy_data_fallback (fun _ _ => AlterOutcome.ok) false false "r"
      "sometimes" tablesC2 (fun _ _ => rfl) (by decide)).1,
   (C10_copy_data_fallback (fun _ _ => AlterOutcome.ok) false false "r"
      "sometimes" tablesC2 (fun _ _ => rfl) (by decide)).2.1⟩

theorem dropLoop_error_of_mismatch (cat : Catalog) (repl : String) (lt : Nat) :
    ∀ (ts : List QualName) (store0 : List StoredDef) (safe : Bool) (k : Nat),
      mismatchAt cat repl lt store0 ts k = true →
      ∃ e, dropLoop cat repl lt ts store0 safe = Except.error e := by
  intro ts
  induction ts with
  | nil =>
    intro store0 safe k h
    simp [mismatchAt] at h
  | cons t ts ih =>
    intro store0 safe k h
    by_cases hc : (allCandidates cat lt t).isEmpty
    · cases k with
      | zero => simp [mismatchAt, hc] at h
      | succ k =>
        have hst : stepStore cat repl lt store0 t = store0 := by
          simp [stepStore, hc]
        simp only [mismatchAt, hst] at h
        have hLoop : dropLoop cat repl lt (t :: ts) store0 safe =
            dropLoop cat repl lt ts store0 safe := by
          simp [dropLoop, hc]
        rw [hLoop]
        exact ih store0 safe k h
    · cases k with
      | zero =>
        have hne : check_num_indexes repl t.schema t.name
            (store_index_defs repl store0 (allCandidates cat lt t)) ≠
            (allCandidates cat lt t).length := by
          simpa [mismatchAt, hc] using h
        have hne2 : ¬ ((allCandidates cat lt t).length =
            check_num_indexes repl t.schema t.name
              (store_index_defs repl store0 (allCandidates cat lt t))) :=
          fun heq => hne heq.symm
        refine ⟨"Tried to store " ++ toString (allCandidates cat lt t).length ++
          " index(es) for " ++ t.schema ++ "." ++ t.name ++ " but " ++
          toString (check_num_indexes repl t.schema t.name
            (store_index_defs repl store0 (allCandidates cat lt t))) ++
          " were stored instead.", ?_⟩
        simp [dropLoop, hc, hne2]
      | succ k =>
        have hst : stepStore cat repl lt store0 t =
            store_index_defs repl store0 (allCandidates cat lt t) := by
          simp [stepStore, hc]
        simp only [mismatchAt, hst] at h
        by_cases heq : (allCandidates cat lt t).length =
            check_num_indexes repl t.schema t.name
              (store_index_defs repl store0 (allCandidates cat lt t))
        · have hLoop : dropLoop cat repl lt (t :: ts) store0 safe =
              dropLoop cat repl lt ts
                (store_index_defs repl store0 (allCandidates cat lt t)) true := by
            simp [dropLoop, hc, heq]
          rw [hLoop]
          exact ih _ true k h
        · refine ⟨"Tried to store " ++ toString (allCandidates cat lt t).length ++
            " index(es) for " ++ t.schema ++ "." ++ t.name ++ " but " ++
            toString (check_num_indexes repl t.schema t.name
              (store_index_defs repl store0 (allCandidates cat lt t))) ++
            " were stored instead.", ?_⟩
          simp [dropLoop, hc, heq]

/-- C1: when for any table the discovered candidate count differs from the
count stored in the backup store, `drop()` raises before executing any DDL —
the run issues zero DROP statements and `_execute_ddl("drop")` is never
reached; contrapositively, DROP execution is reached only when every table
with candidates passed the count-equality gate. -/
theorem C1_consistency_gate (cat : Catalog) (repl : String) (lt : Nat)
    (tables : List QualName) (store0 : List StoredDef)
    (fails : String → Bool) (k : Nat)
    (h : mismatchAt cat repl lt store0 tables k = true) :
    (Indexes.drop cat repl lt tables store0 fails).gateError.isSome = true ∧
    (Indexes.drop cat repl lt tables store0 fails).reachedExec = false ∧
    (Indexes.drop cat repl lt tables store0 fails).executed = [] := by
  obtain ⟨e, he⟩ := dropLoop_error_of_mismatch cat repl lt tables store0 false k h
  simp [Indexes.drop, he]

/-- Catalog for the C1 witness: one large table with one secondary index. -/
def catC1 : Catalog :=
  { indexes := [⟨"public", "tab", "idx1", "CREATE INDEX idx1 ON public.tab (c)"⟩]
    constraints := []
    relSize := fun _ _ => 100 }

/-- A backup store pre-seeded with a stale row for the same table, making the
stored count exceed the discovered count. -/
def storeC1 : List StoredDef :=
  [⟨"public", "tab", "stale", "x", "y", "r"⟩]

/-- Witness for C1: a pre-seeded stale backup row makes the stored count 2
against 1 discovered candidate; the run raises and drops nothing. -/
theorem C1_consistency_gate_witness :
    mismatchAt catC1 "r" 10 storeC1 [⟨"public", "tab"⟩] 0 = true ∧
    (Indexes.drop catC1 "r" 10 [⟨"public", "tab"⟩] storeC1
      (fun _ => false)).executed = [] ∧
    (Indexes.drop catC1 "r" 10 [⟨"public", "tab"⟩] storeC1
      (fun _ => false)).gateError.isSome = true :=
  ⟨by decide,
   (C1_consistency_gate catC1 "r" 10 [⟨"public", "tab"⟩] storeC1
      (fun _ => false) 0 (by decide)).2.2,
   (C1_consistency_gate catC1 "r" 10 [⟨"public", "tab"⟩] storeC1
      (fun _ => false) 0 (by decide)).1⟩

/-- Catalog for the C6 counterexample: one large table with one secondary
index. -/
def catC6 : Catalog :=
  { indexes := [⟨"public", "tab", "idx1", "CREATE INDEX idx1 ON public.tab (col)"⟩]
    constraints := []
    relSize := fun _ _ => 100 }

/-- The discovered definition of the index of `catC6`. -/
def dC6 : IndexDef :=
  { schemaname := "public"
    tablename := "tab"
    indexname := "idx1"
    create_ddl := "CREATE INDEX idx1 ON public.tab (col)"
    drop_ddl := "DROP INDEX public.idx1" }

/-- C6 fails on the code in two places: the generated statement for a plain
index is `DROP INDEX` without `IF EXISTS`, and a failure executing one
statement raises out of the loop, so the remaining statements are not
executed (here the second statement is never run). -/
theorem C6_counterexample :
    (get_index_defs catC6 ⟨"public", "tab"⟩ 10).map (fun d => d.drop_ddl) =
      ["DROP INDEX public.idx1"] ∧
    "DROP INDEX public.idx1" ≠ "DROP INDEX IF EXISTS public.idx1" ∧
    execute_ddl (fun s => s == "DROP INDEX public.idx1")
      ["DROP INDEX public.idx1", "ALTER TABLE public.tab DROP CONSTRAINT uq1"]
      = ([], some "DROP INDEX public.idx1") := by
  decide

/-- C6 amended: once the gate has passed, the stored statements are executed
in order, each committed in its own transaction, so the statements committed
are exactly the prefix before the first failing one — a failure raises and
prevents the remaining statements (already-committed drops persist); for
plain indexes the executed statement is `DROP INDEX` without `IF EXISTS`. -/
theorem C6_amended_drop_execution (fails : String → Bool) (stmts : List String) :
    execute_ddl fails stmts =
      (stmts.takeWhile (fun s => !fails s),
        (stmts.dropWhile (fun s => !fails s)).head?) ∧
    (∀ (cat : Catalog) (t : QualName) (lt : Nat) (d : IndexDef),
      d ∈ get_index_defs cat t lt →
      d.drop_ddl = "DROP INDEX " ++ d.schemaname ++ "." ++ d.indexname) := by
  constructor
  · induction stmts with
    | nil => simp [execute_ddl]
    | cons s rest ih =>
      by_cases hf : fails s
      · simp [execute_ddl, hf]
      · simp [execute_ddl, hf, ih]
  · intro cat t lt d hd
    simp only [get_index_defs, List.mem_map, List.mem_filter] at hd
    obtain ⟨pi2, _, rfl⟩ := hd
    rfl

/-- Witness for the amended C6: a failing middle statement commits the prefix
and stops, and the concrete discovered index has a bare `DROP INDEX`
statement. -/
theorem C6_amended_drop_execution_witness :
    execute_ddl (fun s => s == "b") ["a", "b", "c"] = (["a"], some "b") ∧
    dC6.drop_ddl = "DROP INDEX public.idx1" :=
  ⟨by rw [(C6_amended_drop_execution (fun s => s == "b") ["a", "b", "c"]).1]
      decide,
   (C6_amended_drop_execution (fun _ => false) []).2 catC6 ⟨"public", "tab"⟩ 10
      dC6 (by decide)⟩

/-- C7: candidate discovery for the index class returns exactly the indexes
of the catalog that live on the given table, with the table larger than the
threshold, and that do not back a primary-key or unique constraint — such
indexes are never candidates. -/
theorem C7_index_discovery (cat : Catalog) (t : QualName) (lt : Nat)
    (n : String) :
    (∃ d ∈ get_index_defs cat t lt, d.indexname = n) ↔
    ∃ i ∈ cat.indexes, i.schemaname = t.schema ∧ i.tablename = t.name ∧
      i.indexname = n ∧ cat.relSize t.schema t.name > lt ∧
      backsKeyConstraint cat i = false := by
  constructor
  · rintro ⟨d, hd, hn⟩
    simp only [get_index_defs, List.mem_map, List.mem_filter] at hd
    obtain ⟨pi2, ⟨hmem, hfilt⟩, rfl⟩ := hd
    simp only [decide_eq_true_eq] at hfilt
    obtain ⟨h1, h2, h3, h4⟩ := hfilt
    refine ⟨pi2, hmem, h1, h2, hn, ?_, ?_⟩
    · rw [← h1, ← h2]
      exact h4
    · simpa using h3
  · rintro ⟨i, hmem, h1, h2, h3, h4, h5⟩
    refine ⟨{ schemaname := i.schemaname, tablename := i.tablename
              indexname := i.indexname, create_ddl := i.indexdef
              drop_ddl := "DROP INDEX " ++ i.schemaname ++ "." ++ i.indexname },
      ?_, h3⟩
    simp only [get_index_defs, List.mem_map, List.mem_filter]
    refine ⟨i, ⟨hmem, ?_⟩, rfl⟩
    simp only [decide_eq_true_eq]
    exact ⟨h1, h2, by simp [h5], by rw [h1, h2]; exact h4⟩

/-- The kick-trigger target state of the desired-state table in §4.1 of the
spec, per `(cascade, async_kick)` combination. -/
def kickTargetState : Bool → Bool → TgEnabled
  | false, false => TgEnabled.origin
  | false, true => TgEnabled.disabled
  | true, false => TgEnabled.always
  | true, true => TgEnabled.disabled

/-- The truncate-trigger target state of the desired-state table in §4.1 of
the spec, per `(cascade, async_kick)` combination. -/
def truncTargetState : Bool → Bool → TgEnabled
  | false, _ => TgEnabled.origin
  | true, _ => TgEnabled.always

/-- A table with its kick and truncate triggers driven to the given states
and every other trigger untouched. -/
def targetTable (repl : String) (ck ct : TgEnabled) (t : DbTable) : DbTable :=
  { t with triggers := t.triggers.map (fun tg =>
      if tg.tgname = kickTrigger repl then { tg with tgenabled := ck }
      else if tg.tgname = truncTrigger repl then { tg with tgenabled := ct }
      else tg) }

/-- C3: with every ALTER succeeding and the bucardo triggers starting at the
default `O` (enabled) state, trigger reconciliation drives each table's kick
and truncate triggers to exactly the states of the §4.1 desired-state table:
`(false,false)` leaves both at the default, `(false,true)` disables kick and
leaves truncate at the default, `(true,false)` sets both to always,
`(true,true)` disables kick and sets truncate to always. -/
theorem C3_desired_state_table (oracle : QualName → String → AlterOutcome)
    (cascade async_kick : Bool) (repl : String) (tables : List DbTable)
    (hok : ∀ q s, oracle q s = AlterOutcome.ok)
    (hinit : ∀ t ∈ tables, ∀ tg ∈ t.triggers,
      (tg.tgname = kickTrigger repl ∨ tg.tgname = truncTrigger repl) →
      tg.tgenabled = TgEnabled.origin) :
    (manage_triggers oracle cascade async_kick repl tables).err = none ∧
    (manage_triggers oracle cascade async_kick repl tables).tables =
      tables.map (targetTable repl (kickTargetState cascade async_kick)
        (truncTargetState cascade async_kick)) := by
  obtain ⟨herr, htab⟩ := manage_triggers_ok oracle cascade async_kick repl tables hok
  refine ⟨herr, ?_⟩
  rw [htab]
  have hkt := kick_ne_trunc repl
  have htk : truncTrigger repl ≠ kickTrigger repl := Ne.symm hkt
  cases cascade <;> cases async_kick
  · -- (false, false): nothing toggled, targets are the initial default state
    simp only [manageOkTables, kickTargetState, truncTargetState]
    refine ((List.map_congr_left ?_).trans (List.map_id tables)).symm
    intro t ht
    unfold targetTable
    cases t with
    | mk s n trs =>
      simp only [id_eq, DbTable.mk.injEq, true_and]
      have : ∀ tg ∈ trs,
          (if tg.tgname = kickTrigger repl then
            { tg with tgenabled := TgEnabled.origin }
          else if tg.tgname = truncTrigger repl then
            { tg with tgenabled := TgEnabled.origin }
          else tg) = tg := by
        intro tg htg
        by_cases hk : tg.tgname = kickTrigger repl
        · have := hinit _ ht tg htg (Or.inl hk)
          simp only [hk, if_pos]
          cases tg
          simp_all
        · by_cases htr : tg.tgname = truncTrigger repl
          · have := hinit _ ht tg htg (Or.inr htr)
            simp only [hk, htr, if_neg, if_pos]
            cases tg
            simp_all
          · simp [hk, htr]
      exact (List.map_congr_left this).trans (List.map_id trs)
  · -- (false, true): kick disabled, truncate left at the default
    simp only [manageOkTables, kickTargetState, truncTargetState]
    apply List.map_congr_left
    intro t ht
    unfold targetTable setTrigger
    cases t with
    | mk s n trs =>
      simp only [DbTable.mk.injEq, true_and]
      apply List.map_congr_left
      intro tg htg
      by_cases hk : tg.tgname = kickTrigger repl
      · simp [hk]
      · by_cases htr : tg.tgname = truncTrigger repl
        · have := hinit _ ht tg htg (Or.inr htr)
          simp only [hk, htr, if_neg, if_pos, if_false, if_true]
          cases tg
          simp_all
        · simp [hk, htr]
  · -- (true, false): both enabled always
    simp only [manageOkTables, kickTargetState, truncTargetState, List.map_map]
    apply List.map_congr_left
    intro t _
    unfold targetTable setTrigger
    cases t with
    | mk s n trs =>
      simp only [Function.comp_apply, DbTable.mk.injEq, true_and, List.map_map]
      apply List.map_congr_left
      intro tg _
      by_cases hk : tg.tgname = kickTrigger repl
      · simp [Function.comp, hk, hkt, htk]
      · by_cases htr : tg.tgname = truncTrigger repl
        · simp [Function.comp, hk, htr, hkt, htk]
        · simp [Function.comp, hk, htr]
  · -- (true, true): kick disabled, truncate enabled always
    simp only [manageOkTables, kickTargetState, truncTargetState, List.map_map]
    apply List.map_congr_left
    intro t _
    unfold targetTable setTrigger
    cases t with
    | mk s n trs =>
      simp only [Function.comp_apply, DbTable.mk.injEq, true_and, List.map_map]
      apply List.map_congr_left
      intro tg _
      by_cases hk : tg.tgname = kickTrigger repl
      · simp [Function.comp, hk, hkt, htk]
      · by_cases htr : tg.tgname = truncTrigger repl
        · simp [Function.comp, hk, htr, hkt, htk]
        · simp [Function.comp, hk, htr]

/-- A table carrying all three bucardo triggers at the default state. -/
def tablesC3 : List DbTable :=
  [⟨"public", "tab",
    [⟨"bucardo_kick_r", TgEnabled.origin⟩,
     ⟨"bucardo_note_trunc_r", TgEnabled.origin⟩,
     ⟨"bucardo_delta", TgEnabled.origin⟩]⟩]

/-- Witness for C3 at the `(true, true)` combination. -/
theorem C3_desired_state_table_witness :
    (manage_triggers (fun _ _ => AlterOutcome.ok) true true "r" tablesC3).err
      = none ∧
    (manage_triggers (fun _ _ => AlterOutcome.ok) true true "r" tablesC3).tables
      = tablesC3.map (targetTable "r" (kickTargetState true true)
          (truncTargetState true true)) :=
  C3_desired_state_table (fun _ _ => AlterOutcome.ok) true true "r" tablesC3
    (fun _ _ => rfl) (by decide)

theorem toggleLoop_no_other (oracle : QualName → String → AlterOutcome)
    (tgt : TgEnabled) (trigger : String)
    (hno : ∀ q s, oracle q s ≠ AlterOutcome.otherError) :
    ∀ ts : List DbTable,
      (toggleLoop oracle tgt trigger ts).err = none ∧
      (toggleLoop oracle tgt trigger ts).tables = ts.map (fun t =>
        if oracle ⟨t.schema, t.name⟩ trigger = AlterOutcome.lockNotAvailable
        then t else setTrigger tgt trigger t) ∧
      (∀ t ∈ ts, needsToggling tgt trigger t = true →
        oracle ⟨t.schema, t.name⟩ trigger = AlterOutcome.lockNotAvailable →
        Event.diagEv trigger (t.schema ++ "." ++ t.name) ∈
          (toggleLoop oracle tgt trigger ts).events) := by
  intro ts
  induction ts with
  | nil => simp [toggleLoop]
  | cons t ts ih =>
    by_cases hn : needsToggling tgt trigger t
    · cases ho : oracle ⟨t.schema, t.name⟩ trigger
      · refine ⟨by simp [toggleLoop, hn, ho, ih.1], ?_, ?_⟩
        · simp [toggleLoop, hn, ho, ih.2.1]
        · intro t' ht' hnt' hol
          rcases List.mem_cons.mp ht' with rfl | hmem
          · rw [ho] at hol
            exact absurd hol (by simp)
          · simp only [toggleLoop, hn, if_true, ho, List.mem_cons]
            exact Or.inr (ih.2.2 t' hmem hnt' hol)
      · refine ⟨by simp [toggleLoop, hn, ho, ih.1], ?_, ?_⟩
        · simp [toggleLoop, hn, ho, ih.2.1]
        · intro t' ht' hnt' hol
          rcases List.mem_cons.mp ht' with rfl | hmem
          · simp [toggleLoop, hn, ho]
          · simp only [toggleLoop, hn, if_true, ho, List.mem_cons]
            exact Or.inr (ih.2.2 t' hmem hnt' hol)
      · exact absurd ho (hno _ _)
    · simp only [Bool.not_eq_true] at hn
      refine ⟨by simp [toggleLoop, hn, ih.1], ?_, ?_⟩
      · simp only [toggleLoop, hn, Bool.false_eq_true, if_false, List.map_cons]
        have hhead : (if oracle ⟨t.schema, t.name⟩ trigger =
            AlterOutcome.lockNotAvailable then t
          else setTrigger tgt trigger t) = t := by
          by_cases hol : oracle ⟨t.schema, t.name⟩ trigger =
              AlterOutcome.lockNotAvailable
          · simp [hol]
          · simp [hol, setTrigger_of_not_needs tgt trigger t hn]
        rw [hhead, ih.2.1]
      · intro t' ht' hnt' hol
        rcases List.mem_cons.mp ht' with rfl | hmem
        · rw [hn] at hnt'
          exact absurd hnt' (by simp)
        · simp only [toggleLoop, hn, Bool.false_eq_true, if_false]
          exact ih.2.2 t' hmem hnt' hol

/-- C4: when the ALTER on some tables fails with a lock-not-available error
(and no other exception occurs), the run completes without aborting: every
non-stuck table is still driven to the desired state, each stuck table is
left unchanged (its transaction rolled back), and a diagnostic naming the
stuck table and the trigger is emitted. -/
theorem C4_lock_failure_continuation (oracle : QualName → String → AlterOutcome)
    (mode trigger : String) (tgt : TgEnabled) (tables : List DbTable)
    (hmode : toggleTarget mode = some tgt)
    (hno : ∀ q s, oracle q s ≠ AlterOutcome.otherError) :
    (toggle_triggers oracle mode trigger tables).err = none ∧
    (toggle_triggers oracle mode trigger tables).tables = tables.map (fun t =>
      if oracle ⟨t.schema, t.name⟩ trigger = AlterOutcome.lockNotAvailable
      then t else setTrigger tgt trigger t) ∧
    (∀ t ∈ tables, needsToggling tgt trigger t = true →
      oracle ⟨t.schema, t.name⟩ trigger = AlterOutcome.lockNotAvailable →
      Event.diagEv trigger (t.schema ++ "." ++ t.name) ∈
        (toggle_triggers oracle mode trigger tables).events) := by
  unfold toggle_triggers
  rw [hmode]
  exact toggleLoop_no_other oracle tgt trigger hno tables

/-- Three tables for the C4 witness, each with a kick trigger at the
default state. -/
def tablesC4 : List DbTable :=
  [⟨"public", "t1", [⟨"bucardo_kick_r", TgEnabled.origin⟩]⟩,
   ⟨"public", "t2", [⟨"bucardo_kick_r", TgEnabled.origin⟩]⟩,
   ⟨"public", "t3", [⟨"bucardo_kick_r", TgEnabled.origin⟩]⟩]

/-- An outcome oracle where only table `t2` is stuck behind a lock. -/
def oracleC4 : QualName → String → AlterOutcome :=
  fun q _ => if q.name = "t2" then AlterOutcome.lockNotAvailable
    else AlterOutcome.ok

/-- Witness for C4: with the middle of three tables stuck, the run reports no
error, updates tables 1 and 3, leaves table 2 unchanged, and emits the skip
diagnostic for table 2. -/
theorem C4_lock_failure_continuation_witness :
    (toggle_triggers oracleC4 "disable" "bucardo_kick_r" tablesC4).err = none ∧
    (toggle_triggers oracleC4 "disable" "bucardo_kick_r" tablesC4).tables =
      [⟨"public", "t1", [⟨"bucardo_kick_r", TgEnabled.disabled⟩]⟩,
       ⟨"public", "t2", [⟨"bucardo_kick_r", TgEnabled.origin⟩]⟩,
       ⟨"public", "t3", [⟨"bucardo_kick_r", TgEnabled.disabled⟩]⟩] ∧
    Event.diagEv "bucardo_kick_r" "public.t2" ∈
      (toggle_triggers oracleC4 "disable" "bucardo_kick_r" tablesC4).events :=
  ⟨(C4_lock_failure_continuation oracleC4 "disable" "bucardo_kick_r"
      TgEnabled.disabled tablesC4 rfl
      (by intro q s; unfold oracleC4; by_cases h : q.name = "t2" <;> simp [h])).1,
   by rw [(C4_lock_failure_continuation oracleC4 "disable" "bucardo_kick_r"
        TgEnabled.disabled tablesC4 rfl
        (by intro q s; unfold oracleC4; by_cases h : q.name = "t2" <;>
          simp [h])).2.1]
      decide,
   (C4_lock_failure_continuation oracleC4 "disable" "bucardo_kick_r"
      TgEnabled.disabled tablesC4 rfl
      (by intro q s; unfold oracleC4; by_cases h : q.name = "t2" <;> simp [h])).2.2
     ⟨"public", "t2", [⟨"bucardo_kick_r", TgEnabled.origin⟩]⟩ (by decide)
     (by decide) (by decide)⟩

theorem toggle_triggers_no_need (oracle : QualName → String → AlterOutcome)
    (mode trigger : String) (tgt : TgEnabled) (ts : List DbTable)
    (hmode : toggleTarget mode = some tgt)
    (h : ∀ t ∈ ts, needsToggling tgt trigger t = false) :
    toggle_triggers oracle mode trigger ts = ToggleResult.skip ts := by
  unfold toggle_triggers
  rw [hmode]
  exact toggleLoop_no_need oracle tgt trigger ts h

theorem skip_andThen (ts : List DbTable) (f : List DbTable → ToggleResult) :
    (ToggleResult.skip ts).andThen f = f ts := by
  simp [ToggleResult.skip, ToggleResult.andThen]

theorem skipRecord_andThen (ts : List DbTable) (f : List DbTable → ToggleResult) :
    ToggleResult.andThen { tables := ts, events := [], err := none } f = f ts :=
  skip_andThen ts f

/-- C5: trigger reconciliation is idempotent — a table whose trigger already
carries the desired `tgenabled` value gets no ALTER (the whole call is a
no-op when every table is already in the desired state), and after a fully
successful reconciliation a second run with the same topology flags issues
zero ALTER statements. -/
theorem C5_idempotence (oracle : QualName → String → AlterOutcome)
    (cascade async_kick : Bool) (repl : String) (tables : List DbTable)
    (hok : ∀ q s, oracle q s = AlterOutcome.ok) :
    (∀ (oracle2 : QualName → String → AlterOutcome) (mode trigger : String)
        (tgt : TgEnabled) (ts : List DbTable), toggleTarget mode = some tgt →
      (∀ t ∈ ts, needsToggling tgt trigger t = false) →
      List.filter Event.isAlterEv
        (toggle_triggers oracle2 mode trigger ts).events = []) ∧
    List.filter Event.isAlterEv
      (manage_triggers oracle cascade async_kick repl
        ((manage_triggers oracle cascade async_kick repl tables).tables)).events
      = [] := by
  constructor
  · intro oracle2 mode trigger tgt ts hmode h
    rw [toggle_triggers_no_need oracle2 mode trigger tgt ts hmode h]
    rfl
  · obtain ⟨_, htab⟩ :=
      manage_triggers_ok oracle cascade async_kick repl tables hok
    rw [htab]
    have hkt := kick_ne_trunc repl
    have htk : truncTrigger repl ≠ kickTrigger repl := Ne.symm hkt
    cases cascade <;> cases async_kick
    · simp [manage_triggers, ToggleResult.skip, ToggleResult.andThen]
    · have hneed : ∀ t ∈ manageOkTables false true repl tables,
          needsToggling TgEnabled.disabled (kickTrigger repl) t = false := by
        intro t ht
        simp only [manageOkTables, List.mem_map] at ht
        obtain ⟨t0, _, rfl⟩ := ht
        exact needs_after_set_same _ _ t0
      have h1 := toggle_triggers_no_need oracle "disable" (kickTrigger repl)
        TgEnabled.disabled (manageOkTables false true repl tables) rfl hneed
      simp [manage_triggers, h1, skip_andThen, skipRecord_andThen, ToggleResult.skip]
    · have hneedT : ∀ t ∈ manageOkTables true false repl tables,
          needsToggling TgEnabled.always (truncTrigger repl) t = false := by
        intro t ht
        simp only [manageOkTables, List.map_map, List.mem_map] at ht
        obtain ⟨t0, _, rfl⟩ := ht
        rw [Function.comp_apply,
          needs_after_set_other TgEnabled.always TgEnabled.always
            (truncTrigger repl) (kickTrigger repl) htk]
        exact needs_after_set_same _ _ t0
      have hneedK : ∀ t ∈ manageOkTables true false repl tables,
          needsToggling TgEnabled.always (kickTrigger repl) t = false := by
        intro t ht
        simp only [manageOkTables, List.map_map, List.mem_map] at ht
        obtain ⟨t0, _, rfl⟩ := ht
        exact needs_after_set_same _ _ _
      have h1 := toggle_triggers_no_need oracle "enable always"
        (truncTrigger repl) TgEnabled.always
        (manageOkTables true false repl tables) rfl hneedT
      have h2 := toggle_triggers_no_need oracle "enable always"
        (kickTrigger repl) TgEnabled.always
        (manageOkTables true false repl tables) rfl hneedK
      simp [manage_triggers, h1, h2, skip_andThen, skipRecord_andThen, ToggleResult.skip]
    · have hneedK : ∀ t ∈ manageOkTables true true repl tables,
          needsToggling TgEnabled.disabled (kickTrigger repl) t = false := by
        intro t ht
        simp only [manageOkTables, List.map_map, List.mem_map] at ht
        obtain ⟨t0, _, rfl⟩ := ht
        rw [Function.comp_apply,
          needs_after_set_other TgEnabled.disabled TgEnabled.always
            (kickTrigger repl) (truncTrigger repl) hkt]
        exact needs_after_set_same _ _ t0
      have hneedT : ∀ t ∈ manageOkTables true true repl tables,
          needsToggling TgEnabled.always (truncTrigger repl) t = false := by
        intro t ht
        simp only [manageOkTables, List.map_map, List.mem_map] at ht
        obtain ⟨t0, _, rfl⟩ := ht
        exact needs_after_set_same _ _ _
      have h1 := toggle_triggers_no_need oracle "disable" (kickTrigger repl)
        TgEnabled.disabled (manageOkTables true true repl tables) rfl hneedK
      have h2 := toggle_triggers_no_need oracle "enable always"
        (truncTrigger repl) TgEnabled.always
        (manageOkTables true true repl tables) rfl hneedT
      simp [manage_triggers, h1, h2, skip_andThen, skipRecord_andThen, ToggleResult.skip]

/-- Witness for C5: after a successful `(true, true)` reconciliation of the
concrete table, a second run issues zero ALTER statements. -/
theorem C5_idempotence_witness :
    List.filter Event.isAlterEv
      (manage_triggers (fun _ _ => AlterOutcome.ok) true true "r"
        ((manage_triggers (fun _ _ => AlterOutcome.ok) true true "r"
          tablesC3).tables)).events = [] :=
  (C5_idempotence (fun _ _ => AlterOutcome.ok) true true "r" tablesC3
    (fun _ _ => rfl)).2

end BucardoWrapper
